import Mathlib

/-!
Verification development for the vehicle-tracker backend
(`src/backend/server.js`).

The GPS points carry exact rational coordinates and optional rational
timestamps (epoch milliseconds); the geometric computations of the code
(haversine distance) are embedded over the real numbers.
-/

/-- A GPS sample as it flows through the pipeline:
`{ lat, lng, timestamp }` with the timestamp optional (epoch ms). -/
structure Point where
  lat : ℚ
  lng : ℚ
  timestamp : Option ℚ
  deriving DecidableEq, Repr

/-- Model of the standard library `Math.atan2(y, x)`. -/
noncomputable def atan2 (y x : ℝ) : ℝ :=
  if 0 < x then Real.arctan (y / x)
  else if x = 0 then (if 0 < y then Real.pi / 2 else if y < 0 then -(Real.pi / 2) else 0)
  else if 0 ≤ y then Real.arctan (y / x) + Real.pi
  else Real.arctan (y / x) - Real.pi

/-- `calculateDistance(lat1, lng1, lat2, lng2)` from `server.js`:
haversine great-circle distance in meters on a sphere of radius 6371000 m. -/
noncomputable def calculateDistance (lat1 lng1 lat2 lng2 : ℝ) : ℝ :=
  let R : ℝ := 6371000
  let dLat := (lat2 - lat1) * Real.pi / 180
  let dLng := (lng2 - lng1) * Real.pi / 180
  let a := Real.sin (dLat / 2) * Real.sin (dLat / 2) +
    Real.cos (lat1 * Real.pi / 180) * Real.cos (lat2 * Real.pi / 180) *
    Real.sin (dLng / 2) * Real.sin (dLng / 2)
  let c := 2 * atan2 (Real.sqrt a) (Real.sqrt (1 - a))
  R * c

/-- The `timeDiff` computation of `filterGPSNoise` (line 99 of `server.js`):
`curr.timestamp ? (new Date(curr.timestamp) - new Date(prev.timestamp)) / 1000 : 1`.
`none` models the JavaScript `NaN` that arises when `curr.timestamp` is
present (truthy) but `prev.timestamp` is absent (`new Date(undefined)` is an
invalid date).  A `curr.timestamp` of `0` is falsy in JavaScript, so it takes
the `1` fallback exactly like a missing timestamp. -/
def timeDiffSec (prev curr : Point) : Option ℚ :=
  match curr.timestamp with
  | none => some 1
  | some tc =>
    if tc = 0 then some 1
    else
      match prev.timestamp with
      | none => none
      | some tp => some ((tc - tp) / 1000)

/-- The `speedKmh` computation of `filterGPSNoise` (line 103 of `server.js`):
`timeDiff > 0 ? (distance / 1000) / (timeDiff / 3600) : 0`.
A `NaN` time difference compares false with `> 0`, hence also yields `0`. -/
noncomputable def speedKmh (prev curr : Point) : ℝ :=
  let distance := calculateDistance prev.lat prev.lng curr.lat curr.lng
  match timeDiffSec prev curr with
  | none => 0
  | some td => if 0 < td then (distance / 1000) / ((td : ℝ) / 3600) else 0

/-- The loop of `filterGPSNoise` (lines 91–111): for `i = 1, 2, …` the point
`coordinates[i]` is kept iff the speed from `coordinates[i-1]` — the previous
*input* point, whether or not it was kept — does not exceed the threshold. -/
noncomputable def filterLoop (maxSpeedKmh : ℝ) : List Point → List Point
  | [] => []
  | [_] => []
  | prev :: curr :: rest =>
    (if speedKmh prev curr ≤ maxSpeedKmh then [curr] else []) ++
      filterLoop maxSpeedKmh (curr :: rest)

/-- `filterGPSNoise(coordinates, maxSpeedKmh = 200)` from `server.js`
(lines 86–114): returns traces of fewer than 2 points unchanged, always keeps
the first point, and appends every later point whose computed speed from its
input predecessor is at most `maxSpeedKmh`. -/
noncomputable def filterGPSNoise (coordinates : List Point) (maxSpeedKmh : ℝ) : List Point :=
  if coordinates.length < 2 then coordinates
  else
    match coordinates with
    | [] => []
    | c :: _ => c :: filterLoop maxSpeedKmh coordinates

/-- Concrete sample point at the origin, no timestamp. -/
def ptA : Point := ⟨0, 0, none⟩

/-- Concrete sample point one degree of longitude east of `ptA` (≈ 111 km
away), no timestamp. -/
def ptB : Point := ⟨0, 1, none⟩

/-- `ptA` with a timestamp of 10 ms. -/
def ptA2 : Point := ⟨0, 0, some 10⟩

/-- `ptB` with the same timestamp of 10 ms (zero elapsed time from `ptA2`). -/
def ptB2 : Point := ⟨0, 1, some 10⟩

/-- The smoothed interior point built at line 71–78 of `server.js`:
the discrete-Laplacian formula applied to `lat` and `lng`, with the
timestamp carried over from the current point. -/
def smoothPoint (prev curr next : Point) (factor : ℚ) : Point :=
  ⟨curr.lat + factor * (prev.lat + next.lat - 2 * curr.lat),
   curr.lng + factor * (prev.lng + next.lng - 2 * curr.lng),
   curr.timestamp⟩

/-- The loop of `smoothCoordinates` (lines 65–79): one smoothed point per
window of three consecutive input points. -/
def smoothMid (factor : ℚ) : List Point → List Point
  | prev :: curr :: next :: rest =>
    smoothPoint prev curr next factor :: smoothMid factor (curr :: next :: rest)
  | _ => []

/-- `smoothCoordinates(coordinates, factor = 0.3)` from `server.js`
(lines 60–83): identity below 3 points, otherwise first point, smoothed
interior points, last point. -/
def smoothCoordinates (coordinates : List Point) (factor : ℚ) : List Point :=
  if coordinates.length < 3 then coordinates
  else
    match coordinates with
    | [] => []
    | c :: rest =>
      c :: (smoothMid factor (c :: rest) ++ [(c :: rest).getLast (List.cons_ne_nil c rest)])

/-- `const maxCoords = 100` (line 19 of `server.js`): the OSRM coordinate
limit applied before the map-matching request. -/
def maxCoords : ℕ := 100

/-- The decimation step inside `snapToRoads` (lines 20–22):
`coordinates.length > maxCoords ? coordinates.filter((_, index) =>
index % Math.ceil(coordinates.length / maxCoords) === 0) : coordinates`. -/
def decimate (coordinates : List Point) : List Point :=
  if coordinates.length > maxCoords then
    ((coordinates.enum.filter
        (fun p => p.1 % ((coordinates.length + maxCoords - 1) / maxCoords) == 0)).map
      Prod.snd)
  else coordinates

/-- Proof-side auxiliary: the elements of `enumFrom n l` whose index is a
multiple of `s`, in order. -/
def keptFrom (s n : ℕ) : List Point → List Point
  | [] => []
  | a :: l => (if n % s = 0 then [a] else []) ++ keptFrom s (n + 1) l

/-- Proof-side auxiliary: every `s`-th element of a list, starting at the
head. -/
def takeEvery (s : ℕ) : List Point → List Point
  | [] => []
  | a :: l => a :: takeEvery s (l.drop (s - 1))
termination_by l => l.length
decreasing_by simp [List.length_drop]; omega

/-- One entry of the OSRM `matchings` array: its
`geometry.coordinates`, a list of `(lng, lat)` pairs. -/
structure Matching where
  coordinates : List (ℚ × ℚ)
  deriving DecidableEq, Repr

/-- The parsed body of an OSRM match response: an optional `matchings`
array (`none` models a response without the field). -/
structure OsrmBody where
  matchings : Option (List Matching)
  deriving DecidableEq, Repr

/-- Outcome of the `fetch` call in `snapToRoads`, the external
non-determinism of the function.  `transportError` models a rejected fetch
(network failure, timeout); `httpResponse ok body` models a completed HTTP
exchange, with `body = none` when `response.json()` fails. -/
inductive FetchResult
  | transportError
  | httpResponse (ok : Bool) (body : Option OsrmBody)
  deriving DecidableEq, Repr

/-- The mapping at lines 40–44 of `server.js`: the first matching's
geometry, each `[lng, lat]` pair turned into `{lat, lng}`, with the
timestamp of the original input point at index
`Math.floor(index * coordinates.length / snappedLength)` (optional
chaining: `none` when that index is out of bounds or the point carries no
timestamp). -/
def snappedFromMatching (coordinates : List Point) (m : Matching) : List Point :=
  m.coordinates.enum.map (fun ic =>
    ⟨ic.2.2, ic.2.1,
     (coordinates.get? (ic.1 * coordinates.length / m.coordinates.length)).bind
       Point.timestamp⟩)

/-- `snapToRoads(coordinates)` from `server.js` (lines 14–57), with the
fetch outcome passed explicitly.  The request string is built from the
internally decimated coordinates; every failure path (transport error,
non-ok HTTP status, JSON failure, missing or empty `matchings`) falls back
to the original, pre-decimation `coordinates`. -/
def snapToRoads (coordinates : List Point) (fetchResult : FetchResult) : List Point :=
  let coords := decimate coordinates
  let coordString :=
    String.intercalate ";" (coords.map (fun c => toString c.lng ++ "," ++ toString c.lat))
  match fetchResult with
  | .transportError => coordinates
  | .httpResponse ok body =>
    if ok then
      match body with
      | none => coordinates
      | some data =>
        match data.matchings with
        | some (m :: _) => snappedFromMatching coordinates m
        | _ => coordinates
    else coordinates

/-- The failure conditions of `snapToRoads`: transport error, non-success
HTTP status, unparsable body, or a missing or empty `matchings` array. -/
def fetchFailed : FetchResult → Bool
  | .transportError => true
  | .httpResponse ok body =>
    !ok ||
      (match body with
       | none => true
       | some data =>
         match data.matchings with
         | none => true
         | some ms => ms.isEmpty)

/-- A JavaScript number as seen by the validation filter: `NaN`, the two
infinities, or a finite value. -/
inductive JSNumber
  | nan
  | inf
  | negInf
  | finite (q : ℚ)
  deriving DecidableEq, Repr

/-- A raw element of the stored `coordinates` array before validation.
`lat`/`lng` are `none` when the field is missing or not of type `number`. -/
structure RawPoint where
  lat : Option JSNumber
  lng : Option JSNumber
  timestamp : Option ℚ
  deriving DecidableEq, Repr

/-- `typeof v === 'number' && !isNaN(v)` for a field value. -/
def jsIsNumberNotNaN : Option JSNumber → Bool
  | none => false
  | some .nan => false
  | some _ => true

/-- The predicate of the validation filter at lines 149–155 of `server.js`:
`p && typeof p.lat === 'number' && typeof p.lng === 'number' &&
!isNaN(p.lat) && !isNaN(p.lng)`.  A `none` element models a falsy array
entry (`null`/`undefined`). -/
def isValidPoint : Option RawPoint → Bool
  | none => false
  | some p => jsIsNumberNotNaN p.lat && jsIsNumberNotNaN p.lng

/-- The validation/stripping step itself (line 149 of `server.js`). -/
def validateCoordinates (coordinates : List (Option RawPoint)) : List (Option RawPoint) :=
  coordinates.filter isValidPoint

/-- The `metadata` object of the route endpoint response (lines 181–186 of
`server.js`). -/
structure Metadata where
  originalCount : ℕ
  processedCount : ℕ
  roadSnapped : Bool
  smoothed : Bool
  deriving DecidableEq, Repr

/-- The two successful response shapes of the route endpoint:
the early `{ coordinates: [] }` reply for an empty validated trace, and the
full reply with metadata. -/
inductive RouteResponse
  | emptyCoords
  | ok (coordinates : List Point) (metadata : Metadata)

/-- The processing pipeline of `app.get('/api/route/:date')` after JSON
parsing and validation succeeded (lines 157–187 of `server.js`):
`originalCount` is the length of the raw `json.coordinates` array,
`coordinates` the validated points converted to exact values. -/
noncomputable def routeProcess (originalCount : ℕ) (coordinates : List Point)
    (snap smooth : String) (fetchResult : FetchResult) : RouteResponse :=
  if coordinates.length = 0 then .emptyCoords
  else
    let c1 := filterGPSNoise coordinates 200
    let c2 := if smooth == "true" then smoothCoordinates c1 (3 / 10) else c1
    let c3 := if snap == "true" then snapToRoads c2 fetchResult else c2
    .ok c3 ⟨originalCount, c3.length, snap == "true", smooth == "true"⟩

/-- Modelled from the spec for comparison with the code: the elapsed-time
policy of §4.2 — the timestamp difference in seconds when both points carry
timestamps, and exactly 1 second when the difference would be non-positive
or either timestamp is missing. -/
def specElapsedSec (prev curr : Point) : ℚ :=
  match prev.timestamp, curr.timestamp with
  | some tp, some tc => if 0 < (tc - tp) / 1000 then (tc - tp) / 1000 else 1
  | _, _ => 1

/-- Modelled from the spec for comparison with the code: speed computed as
distance divided by the spec's elapsed value, never exempting a point. -/
noncomputable def specSpeedKmh (prev curr : Point) : ℝ :=
  (calculateDistance prev.lat prev.lng curr.lat curr.lng / 1000) /
    ((specElapsedSec prev curr : ℝ) / 3600)

/-- Modelled from the spec for comparison with the code: the noise-filter
loop with the code's reference point (previous input point) but the spec's
elapsed-time policy. -/
noncomputable def filterLoopSpecTiming (maxSpeedKmh : ℝ) : List Point → List Point
  | [] => []
  | [_] => []
  | prev :: curr :: rest =>
    (if specSpeedKmh prev curr ≤ maxSpeedKmh then [curr] else []) ++
      filterLoopSpecTiming maxSpeedKmh (curr :: rest)

/-- Modelled from the spec for comparison with the code: `filterGPSNoise`
with the spec's elapsed-time policy in place of the code's. -/
noncomputable def filterNoiseSpecTiming (coordinates : List Point) (maxSpeedKmh : ℝ) :
    List Point :=
  if coordinates.length < 2 then coordinates
  else
    match coordinates with
    | [] => []
    | c :: _ => c :: filterLoopSpecTiming maxSpeedKmh coordinates

/-- Modelled from the spec for comparison with the code: the loop of the
noise filter with the *last retained* point as the comparison reference
(spec §4.2), using the code's speed computation. -/
noncomputable def lastRetainedGo (maxSpeedKmh : ℝ) (last : Point) : List Point → List Point
  | [] => []
  | c :: rest =>
    if speedKmh last c ≤ maxSpeedKmh then c :: lastRetainedGo maxSpeedKmh c rest
    else lastRetainedGo maxSpeedKmh last rest

/-- Modelled from the spec for comparison with the code: the noise filter
whose speed test always references the last retained point. -/
noncomputable def filterNoiseLastRetained (coordinates : List Point) (maxSpeedKmh : ℝ) :
    List Point :=
  if coordinates.length < 2 then coordinates
  else
    match coordinates with
    | [] => []
    | c :: rest => c :: lastRetainedGo maxSpeedKmh c rest

/-- A raw point with an infinite latitude and finite longitude. -/
def rawInf : Option RawPoint := some ⟨some .inf, some (.finite 0), none⟩

/-- Modelled from the spec for comparison with the code: "lat/lng are
finite real numbers; a Point failing this check is invalid and must be
dropped" — keeps a point iff both fields are numbers that are finite. -/
def specIsFinitePoint : Option RawPoint → Bool
  | none => false
  | some p =>
    (match p.lat with
     | some (.finite _) => true
     | _ => false) &&
    (match p.lng with
     | some (.finite _) => true
     | _ => false)

theorem calculateDistance_same (x y : ℝ) : calculateDistance x y x y = 0 := by
  unfold calculateDistance atan2
  simp [sub_self, Real.sqrt_one]

theorem calculateDistance_eq_deg1 :
    calculateDistance 0 0 0 1 = 6371000 * (Real.pi / 180) := by
  have hpi := Real.pi_pos
  have ht0 : (0 : ℝ) ≤ Real.pi / 360 := by positivity
  have htpi2 : Real.pi / 360 < Real.pi / 2 := by linarith
  have htpi : Real.pi / 360 ≤ Real.pi := by linarith
  have hneg : -(Real.pi / 2) < Real.pi / 360 := by linarith
  have hsin : (0 : ℝ) ≤ Real.sin (Real.pi / 360) :=
    Real.sin_nonneg_of_nonneg_of_le_pi ht0 htpi
  have hcos : (0 : ℝ) < Real.cos (Real.pi / 360) :=
    Real.cos_pos_of_mem_Ioo ⟨hneg, htpi2⟩
  have hpyth := Real.sin_sq_add_cos_sq (Real.pi / 360)
  have h1ms : 1 - Real.sin (Real.pi / 360) * Real.sin (Real.pi / 360) =
      Real.cos (Real.pi / 360) * Real.cos (Real.pi / 360) := by
    have h1 : Real.sin (Real.pi / 360) ^ 2 = Real.sin (Real.pi / 360) * Real.sin (Real.pi / 360) := sq (Real.sin (Real.pi / 360)) ▸ by ring
    nlinarith [hpyth]
  unfold calculateDistance
  have hd : ((1 : ℝ) - 0) * Real.pi / 180 / 2 = Real.pi / 360 := by ring
  simp only [sub_zero, sub_self, zero_mul, zero_div, Real.sin_zero, Real.cos_zero,
    mul_zero, zero_add, one_mul, mul_one]
  rw [show Real.pi / 180 / 2 = Real.pi / 360 by ring]
  rw [Real.sqrt_mul_self hsin, h1ms, Real.sqrt_mul_self hcos.le]
  unfold atan2
  rw [if_pos hcos, ← Real.tan_eq_sin_div_cos, Real.arctan_tan hneg htpi2]
  ring

theorem speedKmh_same (p q : Point) (h1 : p.lat = q.lat) (h2 : p.lng = q.lng) :
    speedKmh p q = 0 := by
  unfold speedKmh
  rw [h1, h2, calculateDistance_same]
  cases timeDiffSec p q with
  | none => rfl
  | some td => simp

theorem speedKmh_AB : 200 < speedKmh ptA ptB := by
  have h3 := Real.pi_gt_three
  have he : speedKmh ptA ptB = 127420 * Real.pi := by
    simp only [speedKmh, timeDiffSec, ptA, ptB]
    norm_num [calculateDistance_eq_deg1]
    ring
  rw [he]
  linarith

theorem speedKmh_A2B2 : speedKmh ptA2 ptB2 = 0 := by
  simp only [speedKmh, timeDiffSec, ptA2, ptB2]
  norm_num

theorem specSpeedKmh_A2B2 : 200 < specSpeedKmh ptA2 ptB2 := by
  have h3 := Real.pi_gt_three
  have he : specSpeedKmh ptA2 ptB2 = 127420 * Real.pi := by
    simp only [specSpeedKmh, specElapsedSec, ptA2, ptB2]
    norm_num [calculateDistance_eq_deg1]
    ring
  rw [he]
  linarith

theorem filter_ABB : filterGPSNoise [ptA, ptB, ptB] 200 = [ptA, ptB] := by
  have hAB : ¬ speedKmh ptA ptB ≤ 200 := not_le.mpr speedKmh_AB
  have hBB : speedKmh ptB ptB ≤ 200 := by rw [speedKmh_same ptB ptB rfl rfl]; norm_num
  simp [filterGPSNoise, filterLoop, hAB, hBB]

theorem filter_AB : filterGPSNoise [ptA, ptB] 200 = [ptA] := by
  have hAB : ¬ speedKmh ptA ptB ≤ 200 := not_le.mpr speedKmh_AB
  simp [filterGPSNoise, filterLoop, hAB]

theorem lastRetained_ABB : filterNoiseLastRetained [ptA, ptB, ptB] 200 = [ptA] := by
  have hAB : ¬ speedKmh ptA ptB ≤ 200 := not_le.mpr speedKmh_AB
  simp [filterNoiseLastRetained, lastRetainedGo, hAB]

theorem filter_A2B2 : filterGPSNoise [ptA2, ptB2] 200 = [ptA2, ptB2] := by
  have h : speedKmh ptA2 ptB2 ≤ 200 := by rw [speedKmh_A2B2]; norm_num
  simp [filterGPSNoise, filterLoop, h]

theorem specTiming_A2B2 : filterNoiseSpecTiming [ptA2, ptB2] 200 = [ptA2] := by
  have h : ¬ specSpeedKmh ptA2 ptB2 ≤ 200 := not_le.mpr specSpeedKmh_A2B2
  simp [filterNoiseSpecTiming, filterLoopSpecTiming, h]

theorem filterLoop_eq_zip (m : ℝ) :
    ∀ (l : List Point) (p : Point),
      filterLoop m (p :: l) =
        (((p :: l).zip l).filter (fun pq => decide (speedKmh pq.1 pq.2 ≤ m))).map Prod.snd := by
  intro l
  induction l with
  | nil => intro p; simp [filterLoop]
  | cons q l' ih =>
    intro p
    rw [show filterLoop m (p :: q :: l') =
      (if speedKmh p q ≤ m then [q] else []) ++ filterLoop m (q :: l') from rfl]
    rw [ih q]
    by_cases h : speedKmh p q ≤ m <;> simp [h]

theorem filterLoop_sublist (m : ℝ) :
    ∀ (l : List Point) (p : Point), (filterLoop m (p :: l)).Sublist l := by
  intro l
  induction l with
  | nil => intro p; simp [filterLoop]
  | cons q l' ih =>
    intro p
    rw [show filterLoop m (p :: q :: l') =
      (if speedKmh p q ≤ m then [q] else []) ++ filterLoop m (q :: l') from rfl]
    by_cases h : speedKmh p q ≤ m
    · simpa [h] using (ih q).cons₂ q
    · simpa [h] using (ih q).cons q

/-- C1: whenever the map-matching call fails in any way — transport error,
non-success HTTP status, unparsable body, or a missing or empty `matchings`
array — `snapToRoads` returns its original, pre-decimation input unchanged. -/
theorem C1_snap_fail_open (coordinates : List Point) (fr : FetchResult)
    (h : fetchFailed fr = true) : snapToRoads coordinates fr = coordinates := by
  cases fr with
  | transportError => rfl
  | httpResponse ok body =>
    cases ok with
    | false => rfl
    | true =>
      cases body with
      | none => rfl
      | some data =>
        rcases hm : data.matchings with _ | ⟨_ | ⟨mt, ms⟩⟩
        · simp [snapToRoads, hm]
        · simp [snapToRoads, hm]
        · simp [fetchFailed, hm] at h

/-- Witness for C1 at a concrete failing fetch and a one-point trace. -/
theorem C1_snap_fail_open_witness :
    fetchFailed .transportError = true ∧
      snapToRoads [ptA] .transportError = [ptA] :=
  ⟨rfl, C1_snap_fail_open [ptA] .transportError rfl⟩

/-- C2 counterexample: on the trace `[ptA, ptB, ptB]` the code keeps the
third point (compared against the *discarded* second input point, zero
distance), while the spec's last-retained rule would drop it: the two
filters disagree. -/
theorem C2_counterexample :
    filterGPSNoise [ptA, ptB, ptB] 200 = [ptA, ptB] ∧
      filterNoiseLastRetained [ptA, ptB, ptB] 200 = [ptA] :=
  ⟨filter_ABB, lastRetained_ABB⟩

/-- C2 amended: the speed test of `filterGPSNoise` compares each point
against the immediately preceding *input* point, whether or not it was
retained: the output is the head followed by exactly those points whose
speed from their input predecessor is at most the threshold. -/
theorem C2_amended_prev_input_reference (c : Point) (rest : List Point) (m : ℝ) :
    filterGPSNoise (c :: rest) m =
      c :: (((c :: rest).zip rest).filter
        (fun pq => decide (speedKmh pq.1 pq.2 ≤ m))).map Prod.snd := by
  cases rest with
  | nil => simp [filterGPSNoise]
  | cons r rest' =>
    rw [show filterGPSNoise (c :: r :: rest') m =
      c :: filterLoop m (c :: r :: rest') by simp [filterGPSNoise]]
    rw [filterLoop_eq_zip m (r :: rest') c]

/-- C3 counterexample: two points one degree apart carrying the *same*
timestamp.  The claim's policy (fall back to 1 s on a non-positive delta)
computes a huge speed and drops the second point; the code instead sets the
speed to 0 and keeps it. -/
theorem C3_counterexample :
    filterGPSNoise [ptA2, ptB2] 200 = [ptA2, ptB2] ∧
      filterNoiseSpecTiming [ptA2, ptB2] 200 = [ptA2] :=
  ⟨filter_A2B2, specTiming_A2B2⟩

/-- C3 amended: the elapsed time is the timestamp difference in seconds
when the current point carries a truthy timestamp (a JavaScript `NaN`,
modelled as `none`, when the previous point lacks one), and 1 second when
the current point's timestamp is missing; whenever the elapsed value is
non-positive or `NaN`, the speed is set to `0` instead of using a 1-second
fallback, so such points always pass the speed test. -/
theorem C3_amended_elapsed_policy (p q : Point) :
    (q.timestamp = none → timeDiffSec p q = some 1) ∧
    (∀ tc, q.timestamp = some tc → tc ≠ 0 → p.timestamp = none →
      timeDiffSec p q = none) ∧
    (∀ tc tp, q.timestamp = some tc → tc ≠ 0 → p.timestamp = some tp →
      timeDiffSec p q = some ((tc - tp) / 1000)) ∧
    (∀ td, timeDiffSec p q = some td → td ≤ 0 → speedKmh p q = 0) ∧
    (timeDiffSec p q = none → speedKmh p q = 0) := by
  refine ⟨?_, ?_, ?_, ?_, ?_⟩
  · intro h; simp [timeDiffSec, h]
  · intro tc hq htc hp; simp [timeDiffSec, hq, htc, hp]
  · intro tc tp hq htc hp; simp [timeDiffSec, hq, htc, hp]
  · intro td h hle
    simp only [speedKmh, h]
    rw [if_neg (not_lt.mpr hle)]
  · intro h; simp [speedKmh, h]

/-- Witness for C3 at the concrete pair with equal timestamps. -/
theorem C3_amended_elapsed_policy_witness :
    timeDiffSec ptA2 ptB2 = some 0 ∧ speedKmh ptA2 ptB2 = 0 := by
  have h := C3_amended_elapsed_policy ptA2 ptB2
  have ht : timeDiffSec ptA2 ptB2 = some 0 := by
    have := h.2.2.1 10 10 rfl (by norm_num) rfl
    simpa using this
  exact ⟨ht, h.2.2.2.1 0 ht le_rfl⟩

/-- C4 counterexample: one pass over `[ptA, ptB, ptB]` keeps `[ptA, ptB]`,
whose single consecutive pair exceeds the threshold, so a second pass
removes another point — `filterGPSNoise` is not idempotent. -/
theorem C4_counterexample :
    filterGPSNoise (filterGPSNoise [ptA, ptB, ptB] 200) 200 ≠
      filterGPSNoise [ptA, ptB, ptB] 200 := by
  rw [filter_ABB, filter_AB]
  simp

/-- C4 amended: `filterGPSNoise` is idempotent on traces of at most two
points; for longer traces a second application can remove further points,
because the speed test references the previous input point even when that
point was discarded. -/
theorem C4_amended_idempotent_short (t : List Point) (m : ℝ) (h : t.length ≤ 2) :
    filterGPSNoise (filterGPSNoise t m) m = filterGPSNoise t m := by
  rcases t with _ | ⟨a, _ | ⟨b, _ | ⟨c, rest⟩⟩⟩
  · rfl
  · rfl
  · by_cases hs : speedKmh a b ≤ m
    · have h1 : filterGPSNoise [a, b] m = [a, b] := by simp [filterGPSNoise, filterLoop, hs]
      rw [h1, h1]
    · have h1 : filterGPSNoise [a, b] m = [a] := by simp [filterGPSNoise, filterLoop, hs]
      rw [h1]; rfl
  · simp at h

/-- Witness for C4 (amended) at a concrete two-point trace. -/
theorem C4_amended_idempotent_short_witness :
    filterGPSNoise (filterGPSNoise [ptA2, ptB2] 200) 200 =
      filterGPSNoise [ptA2, ptB2] 200 :=
  C4_amended_idempotent_short [ptA2, ptB2] 200 (by simp)

/-- C5: the output of `filterGPSNoise` is never longer than its input, is a
subsequence of it (original order, no reordering), and starts with the
input's first point whenever the input is non-empty. -/
theorem C5_filter_shape (t : List Point) (m : ℝ) :
    (filterGPSNoise t m).length ≤ t.length ∧
    (filterGPSNoise t m).Sublist t ∧
    (t ≠ [] → (filterGPSNoise t m).head? = t.head?) := by
  by_cases h : t.length < 2
  · rw [show filterGPSNoise t m = t from if_pos h]
    exact ⟨le_refl _, List.Sublist.refl t, fun _ => rfl⟩
  · cases t with
    | nil => simp at h
    | cons c rest =>
      have he : filterGPSNoise (c :: rest) m = c :: filterLoop m (c :: rest) := by
        rw [filterGPSNoise, if_neg h]
      have hs : (c :: filterLoop m (c :: rest)).Sublist (c :: rest) :=
        (filterLoop_sublist m rest c).cons₂ c
      rw [he]
      exact ⟨hs.length_le, hs, fun _ => rfl⟩

/-- Witness for C5 at a concrete one-point trace. -/
theorem C5_filter_shape_witness : (filterGPSNoise [ptB] 200).head? = some ptB :=
  (C5_filter_shape [ptB] 200).2.2 (by simp)

theorem smoothMid_length (f : ℚ) : ∀ l : List Point, (smoothMid f l).length = l.length - 2 := by
  intro l
  induction l with
  | nil => rfl
  | cons a l ih =>
    rcases l with _ | ⟨b, _ | ⟨c, rest⟩⟩
    · rfl
    · rfl
    · rw [show smoothMid f (a :: b :: c :: rest) =
        smoothPoint a b c f :: smoothMid f (b :: c :: rest) from rfl]
      simp only [List.length_cons, ih]
      omega

theorem smoothMid_getElem (f : ℚ) :
    ∀ (l : List Point) (j : ℕ) (p q r : Point),
      l[j]? = some p → l[j + 1]? = some q → l[j + 2]? = some r →
      (smoothMid f l)[j]? = some (smoothPoint p q r f) := by
  intro l
  induction l with
  | nil => intro j p q r hp _ _; simp at hp
  | cons a l ih =>
    intro j p q r hp hq hr
    rcases l with _ | ⟨b, _ | ⟨c, rest⟩⟩
    · rcases j with _ | j <;> simp at hq
    · rcases j with _ | ⟨_ | j⟩ <;> simp at hr
    · rcases j with _ | j
      · simp only [List.getElem?_cons_zero, List.getElem?_cons_succ,
          Option.some.injEq] at hp hq hr
        subst hp; subst hq; subst hr
        rw [show smoothMid f (a :: b :: c :: rest) =
          smoothPoint a b c f :: smoothMid f (b :: c :: rest) from rfl]
        simp
      · have hstep : (smoothMid f (a :: b :: c :: rest))[j + 1]? =
            (smoothMid f (b :: c :: rest))[j]? := by
          rw [show smoothMid f (a :: b :: c :: rest) =
            smoothPoint a b c f :: smoothMid f (b :: c :: rest) from rfl]
          simp
        rw [hstep]
        exact ih j p q r (by simpa using hp) (by simpa using hq) (by simpa using hr)

/-- C6: `smoothCoordinates` is the identity on traces of fewer than 3
points; otherwise it preserves the length, keeps the first and last points
exactly, and replaces each interior point by the discrete-Laplacian formula
on `lat` and `lng` with the timestamp carried over unchanged. -/
theorem C6_smooth_shape (coordinates : List Point) (factor : ℚ) :
    (coordinates.length < 3 → smoothCoordinates coordinates factor = coordinates) ∧
    (smoothCoordinates coordinates factor).length = coordinates.length ∧
    (smoothCoordinates coordinates factor).head? = coordinates.head? ∧
    (smoothCoordinates coordinates factor).getLast? = coordinates.getLast? ∧
    (∀ (j : ℕ) (p q r : Point),
      coordinates[j]? = some p → coordinates[j + 1]? = some q →
        coordinates[j + 2]? = some r →
      (smoothCoordinates coordinates factor)[j + 1]? =
        some ⟨q.lat + factor * (p.lat + r.lat - 2 * q.lat),
              q.lng + factor * (p.lng + r.lng - 2 * q.lng), q.timestamp⟩) := by
  by_cases h3 : coordinates.length < 3
  · have hid : smoothCoordinates coordinates factor = coordinates := by
      rw [smoothCoordinates.eq_def, if_pos h3]
    refine ⟨fun _ => hid, by rw [hid], by rw [hid], by rw [hid], ?_⟩
    intro j p q r _ _ hr
    obtain ⟨hlt, -⟩ := List.getElem?_eq_some.mp hr
    omega
  · cases coordinates with
    | nil => simp at h3
    | cons c rest =>
      have hlen : 3 ≤ (c :: rest).length := not_lt.mp h3
      have he : smoothCoordinates (c :: rest) factor =
          c :: (smoothMid factor (c :: rest) ++
            [(c :: rest).getLast (List.cons_ne_nil c rest)]) := by
        rw [smoothCoordinates.eq_def, if_neg h3]
      have hmidlen : (smoothMid factor (c :: rest)).length = (c :: rest).length - 2 :=
        smoothMid_length factor (c :: rest)
      simp only [List.length_cons] at hmidlen hlen
      refine ⟨fun h => absurd h h3, ?_, ?_, ?_, ?_⟩
      · rw [he]
        simp only [List.length_cons, List.length_append, hmidlen, List.length_nil]
        omega
      · rw [he]; rfl
      · rw [he]
        rw [show (c :: (smoothMid factor (c :: rest) ++
            [(c :: rest).getLast (List.cons_ne_nil c rest)])) =
          ((c :: smoothMid factor (c :: rest)) ++
            [(c :: rest).getLast (List.cons_ne_nil c rest)]) from rfl]
        rw [List.getLast?_concat, List.getLast?_eq_getLast (c :: rest) (List.cons_ne_nil c rest)]
      · intro j p q r hp hq hr
        obtain ⟨hjlt, -⟩ := List.getElem?_eq_some.mp hr
        simp only [List.length_cons] at hjlt
        rw [he]
        rw [show (c :: (smoothMid factor (c :: rest) ++
            [(c :: rest).getLast (List.cons_ne_nil c rest)]))[j + 1]? =
          (smoothMid factor (c :: rest) ++
            [(c :: rest).getLast (List.cons_ne_nil c rest)])[j]? by simp]
        rw [List.getElem?_append_left (by omega : j < (smoothMid factor (c :: rest)).length)]
        exact smoothMid_getElem factor (c :: rest) j p q r hp hq hr

/-- Witness for C6 at a concrete three-point trace: the interior point
moves by the Laplacian update, first and last stay. -/
theorem C6_smooth_shape_witness :
    (smoothCoordinates [⟨0, 0, none⟩, ⟨1, 1, some 5⟩, ⟨2, 0, none⟩] (3 / 10))[1]? =
      some ⟨1, 2 / 5, some 5⟩ := by
  have h := (C6_smooth_shape [⟨0, 0, none⟩, ⟨1, 1, some 5⟩, ⟨2, 0, none⟩] (3 / 10)).2.2.2.2
    0 ⟨0, 0, none⟩ ⟨1, 1, some 5⟩ ⟨2, 0, none⟩ rfl rfl rfl
  rw [h]
  norm_num

theorem enumFrom_filter_map (s : ℕ) :
    ∀ (l : List Point) (n : ℕ),
      ((List.enumFrom n l).filter (fun p => p.1 % s == 0)).map Prod.snd = keptFrom s n l := by
  intro l
  induction l with
  | nil => intro n; rfl
  | cons a l' ih =>
    intro n
    rw [List.enumFrom_cons]
    by_cases h : n % s = 0
    · rw [List.filter_cons_of_pos (by simpa using h), List.map_cons, ih, keptFrom, if_pos h]
      rfl
    · rw [List.filter_cons_of_neg (by simpa using h), ih, keptFrom, if_neg h]
      rfl

theorem keptFrom_skip (s : ℕ) :
    ∀ (j : ℕ) (l : List Point) (n : ℕ),
      (∀ i, i < j → (n + i) % s ≠ 0) → keptFrom s n l = keptFrom s (n + j) (l.drop j) := by
  intro j
  induction j with
  | zero => intro l n _; simp
  | succ j ih =>
    intro l n hmod
    cases l with
    | nil => simp [keptFrom]
    | cons a l' =>
      rw [keptFrom, if_neg (by simpa using hmod 0 (by omega))]
      rw [List.nil_append]
      rw [ih l' (n + 1) (fun i hi => by
        have h := hmod (i + 1) (by omega)
        rwa [show n + (i + 1) = n + 1 + i by omega] at h)]
      rw [show n + 1 + j = n + (j + 1) by omega, List.drop_succ_cons]

theorem keptFrom_eq_takeEvery (s : ℕ) (hs : 0 < s) :
    ∀ (N : ℕ) (l : List Point) (n : ℕ), l.length ≤ N → n % s = 0 →
      keptFrom s n l = takeEvery s l := by
  intro N
  induction N with
  | zero =>
    intro l n h _
    cases l with
    | nil => simp [keptFrom, takeEvery]
    | cons a l' => simp at h
  | succ N ih =>
    intro l n h hn
    cases l with
    | nil => simp [keptFrom, takeEvery]
    | cons a l' =>
      rw [keptFrom, if_pos hn]
      rw [keptFrom_skip s (s - 1) l' (n + 1) (fun i hi => by
        rw [show n + 1 + i = n + (1 + i) by omega,
          show (n + (1 + i)) % s = (1 + i) % s by rw [Nat.add_mod, hn]; simp,
          Nat.mod_eq_of_lt (by omega)]
        omega)]
      have hd : (l'.drop (s - 1)).length ≤ N := by
        simp only [List.length_drop]
        simp only [List.length_cons] at h
        omega
      have hmods : (n + 1 + (s - 1)) % s = 0 := by
        rw [show n + 1 + (s - 1) = n + s by omega, Nat.add_mod, hn, Nat.mod_self]
        simp
      rw [ih (l'.drop (s - 1)) (n + 1 + (s - 1)) hd hmods]
      rw [show takeEvery s (a :: l') = a :: takeEvery s (l'.drop (s - 1)) by
        rw [takeEvery]]
      rfl

theorem takeEvery_sublist (s : ℕ) :
    ∀ (N : ℕ) (l : List Point), l.length ≤ N → (takeEvery s l).Sublist l := by
  intro N
  induction N with
  | zero =>
    intro l h
    cases l with
    | nil => simp [takeEvery]
    | cons a l' => simp at h
  | succ N ih =>
    intro l h
    cases l with
    | nil => simp [takeEvery]
    | cons a l' =>
      rw [show takeEvery s (a :: l') = a :: takeEvery s (l'.drop (s - 1)) by rw [takeEvery]]
      have hd : (l'.drop (s - 1)).length ≤ N := by
        simp only [List.length_drop]
        simp only [List.length_cons] at h
        omega
      exact ((ih (l'.drop (s - 1)) hd).trans (List.drop_sublist _ _)).cons₂ a

theorem takeEvery_getElem (s : ℕ) (hs : 0 < s) :
    ∀ (k : ℕ) (l : List Point), (takeEvery s l)[k]? = l[k * s]? := by
  intro k
  induction k with
  | zero =>
    intro l
    cases l with
    | nil => simp [takeEvery]
    | cons a l' =>
      rw [show takeEvery s (a :: l') = a :: takeEvery s (l'.drop (s - 1)) by rw [takeEvery]]
      simp
  | succ k ih =>
    intro l
    cases l with
    | nil => simp [takeEvery]
    | cons a l' =>
      have hidx : s - 1 + k * s + 1 = (k + 1) * s := by
        rw [Nat.succ_mul k s]
        omega
      calc (takeEvery s (a :: l'))[k + 1]?
          = (takeEvery s (l'.drop (s - 1)))[k]? := by
            rw [show takeEvery s (a :: l') = a :: takeEvery s (l'.drop (s - 1)) by
              rw [takeEvery]]
            simp
        _ = (l'.drop (s - 1))[k * s]? := ih (l'.drop (s - 1))
        _ = l'[s - 1 + k * s]? := List.getElem?_drop l' (s - 1) (k * s)
        _ = (a :: l')[s - 1 + k * s + 1]? := by simp
        _ = (a :: l')[(k + 1) * s]? := by rw [hidx]

theorem takeEvery_length (s : ℕ) (hs : 0 < s) :
    ∀ (N : ℕ) (l : List Point), l.length ≤ N → l ≠ [] →
      (takeEvery s l).length = (l.length - 1) / s + 1 := by
  intro N
  induction N with
  | zero =>
    intro l h hne
    cases l with
    | nil => exact absurd rfl hne
    | cons a l' => simp at h
  | succ N ih =>
    intro l h hne
    cases l with
    | nil => exact absurd rfl hne
    | cons a l' =>
      rw [show takeEvery s (a :: l') = a :: takeEvery s (l'.drop (s - 1)) by rw [takeEvery]]
      by_cases hd : l'.drop (s - 1) = []
      · have hl' : l'.length ≤ s - 1 := List.drop_eq_nil_iff.mp hd
        rw [hd]
        rw [show takeEvery s ([] : List Point) = [] by rw [takeEvery]]
        simp only [List.length_cons, List.length_nil]
        rw [Nat.div_eq_of_lt (by omega)]
      · have hlen' : (l'.drop (s - 1)).length ≤ N := by
          simp only [List.length_drop]
          simp only [List.length_cons] at h
          omega
        rw [List.length_cons, ih (l'.drop (s - 1)) hlen' hd]
        rw [List.length_drop]
        have hge : s ≤ l'.length := by
          by_contra hc
          push_neg at hc
          exact hd (List.drop_eq_nil_iff.mpr (by omega))
        rw [show l'.length - (s - 1) - 1 = l'.length - s by omega]
        rw [show (a :: l').length - 1 = l'.length by simp]
        rw [Nat.div_eq_sub_div hs hge]

theorem decimate_eq_takeEvery (coordinates : List Point)
    (h : 100 < coordinates.length) :
    decimate coordinates = takeEvery ((coordinates.length + 99) / 100) coordinates := by
  have hs : 0 < (coordinates.length + 99) / 100 := Nat.div_pos (by omega) (by norm_num)
  rw [decimate, if_pos (by simpa [maxCoords] using h)]
  rw [show coordinates.enum = List.enumFrom 0 coordinates from rfl]
  rw [show coordinates.length + maxCoords - 1 = coordinates.length + 99 by
    simp [maxCoords]]
  rw [show (maxCoords : ℕ) = 100 from rfl]
  rw [enumFrom_filter_map]
  exact keptFrom_eq_takeEvery _ hs coordinates.length coordinates 0 le_rfl (Nat.zero_mod _)

/-- C7: the decimation step is the identity for traces of at most 100
points; otherwise it keeps exactly the points at indices `0, s, 2s, …` with
stride `s = ceil(length / 100)`.  In every case the result has at most 100
points, keeps the first point, and is a subsequence of the input (original
order and timestamps preserved). -/
theorem C7_decimate_shape (coordinates : List Point) :
    (coordinates.length ≤ 100 → decimate coordinates = coordinates) ∧
    (decimate coordinates).length ≤ 100 ∧
    (coordinates ≠ [] → (decimate coordinates).head? = coordinates.head?) ∧
    (decimate coordinates).Sublist coordinates ∧
    (100 < coordinates.length → ∀ k : ℕ,
      (decimate coordinates)[k]? = coordinates[k * ((coordinates.length + 99) / 100)]?) := by
  by_cases h : coordinates.length ≤ 100
  · have hid : decimate coordinates = coordinates := by
      rw [decimate, if_neg (by simp [maxCoords]; omega)]
    exact ⟨fun _ => hid, by rw [hid]; exact h, fun _ => by rw [hid],
      by rw [hid], fun hc => absurd hc (by omega)⟩
  · push_neg at h
    have hs : 0 < (coordinates.length + 99) / 100 := Nat.div_pos (by omega) (by norm_num)
    have hte := decimate_eq_takeEvery coordinates h
    have hne : coordinates ≠ [] := by
      cases coordinates with
      | nil => simp at h
      | cons a l => exact List.cons_ne_nil a l
    have hlen : (decimate coordinates).length =
        (coordinates.length - 1) / ((coordinates.length + 99) / 100) + 1 := by
      rw [hte]
      exact takeEvery_length _ hs coordinates.length coordinates le_rfl hne
    refine ⟨fun hc => by omega, ?_, ?_, ?_, fun _ k => ?_⟩
    · rw [hlen]
      have hdm := Nat.div_add_mod (coordinates.length + 99) 100
      have hmlt : (coordinates.length + 99) % 100 < 100 := Nat.mod_lt _ (by norm_num)
      have hmul : coordinates.length - 1 < 100 * ((coordinates.length + 99) / 100) := by
        omega
      have := (Nat.div_lt_iff_lt_mul hs).mpr (by omega :
        coordinates.length - 1 < 100 * ((coordinates.length + 99) / 100))
      omega
    · intro _
      cases coordinates with
      | nil => exact absurd rfl hne
      | cons a l =>
        rw [hte]
        rw [show takeEvery (((a :: l).length + 99) / 100) (a :: l) =
          a :: takeEvery (((a :: l).length + 99) / 100)
            (l.drop ((((a :: l).length + 99) / 100) - 1)) by rw [takeEvery]]
        rfl
    · rw [hte]
      exact takeEvery_sublist _ coordinates.length coordinates le_rfl
    · rw [hte]
      exact takeEvery_getElem _ hs k coordinates

/-- Witness for C7: identity on a short trace, and on a 101-point trace the
second kept point is the input point at index 2 (stride ceil(101/100)=2). -/
theorem C7_decimate_shape_witness :
    decimate [ptA] = [ptA] ∧
      (decimate (List.replicate 101 ptA))[1]? = (List.replicate 101 ptA)[2]? := by
  constructor
  · exact (C7_decimate_shape [ptA]).1 (by norm_num)
  · have h := (C7_decimate_shape (List.replicate 101 ptA)).2.2.2.2
      (by simp) 1
    norm_num [List.length_replicate] at h
    exact h

/-- C8: on a successful response whose `matchings` array is non-empty,
`snapToRoads` returns the first matching's geometry with each `[lng, lat]`
pair swapped into `{lat, lng}`, the point at output index `k` carrying the
timestamp of the original input point at index
`floor(k * originalLength / snappedLength)`; for a non-empty original trace
that index is always within bounds. -/
theorem C8_snap_success_mapping (coordinates : List Point) (data : OsrmBody)
    (m : Matching) (ms : List Matching) (h : data.matchings = some (m :: ms)) :
    snapToRoads coordinates (.httpResponse true (some data)) =
      m.coordinates.enum.map (fun ic =>
        ⟨ic.2.2, ic.2.1,
         (coordinates.get? (ic.1 * coordinates.length / m.coordinates.length)).bind
           Point.timestamp⟩) ∧
    (0 < coordinates.length → ∀ k, k < m.coordinates.length →
      k * coordinates.length / m.coordinates.length < coordinates.length) := by
  constructor
  · simp only [snapToRoads, h]
    rfl
  · intro hL k hk
    have hS : 0 < m.coordinates.length := by omega
    rw [Nat.div_lt_iff_lt_mul hS]
    calc k * coordinates.length
        < m.coordinates.length * coordinates.length :=
          (Nat.mul_lt_mul_right hL).mpr hk
      _ = coordinates.length * m.coordinates.length := Nat.mul_comm _ _

/-- Witness for C8: a one-point trace with timestamp 5 and a one-point
matching geometry `[(lng 1, lat 2)]` produces `[{lat 2, lng 1, ts 5}]`. -/
theorem C8_snap_success_mapping_witness :
    snapToRoads [⟨0, 0, some 5⟩]
        (.httpResponse true (some ⟨some [⟨[(1, 2)]⟩]⟩)) = [⟨2, 1, some 5⟩] := by
  have h := (C8_snap_success_mapping [⟨0, 0, some 5⟩] ⟨some [⟨[(1, 2)]⟩]⟩
    ⟨[(1, 2)]⟩ [] rfl).1
  rw [h]
  rfl

/-- C9 counterexample: a point with `lat = Infinity` is *kept* by the
validation filter (the code checks only `typeof === 'number'` and
`!isNaN`), although it is not a finite number, contradicting the claim that
exactly the non-finite points are dropped. -/
theorem C9_counterexample :
    validateCoordinates [rawInf] = [rawInf] ∧
      isValidPoint rawInf = true ∧ specIsFinitePoint rawInf = false :=
  ⟨rfl, rfl, rfl⟩

/-- C9 amended: the validation step drops exactly the falsy entries and
those whose `lat` or `lng` is missing, non-numeric, or `NaN`; a point whose
`lat` and `lng` are numbers other than `NaN` — including the infinities —
is kept. -/
theorem C9_amended_validation (p : RawPoint) :
    isValidPoint none = false ∧
    (isValidPoint (some p) = true ↔
      (p.lat ≠ none ∧ p.lat ≠ some JSNumber.nan ∧
       p.lng ≠ none ∧ p.lng ≠ some JSNumber.nan)) := by
  refine ⟨rfl, ?_⟩
  rcases p with ⟨pl, pg, pt⟩
  rcases pl with _ | a
  · simp [isValidPoint, jsIsNumberNotNaN]
  · rcases pg with _ | b
    · cases a <;> simp [isValidPoint, jsIsNumberNotNaN]
    · cases a <;> cases b <;> simp [isValidPoint, jsIsNumberNotNaN]

/-- C10: in the route endpoint's full response the metadata flags report
the *requested* options — `roadSnapped` is `snap == "true"` and `smoothed`
is `smooth == "true"` — regardless of what the stages actually did, in
particular even when the map-matching fetch failed and the fallback trace
was returned. -/
theorem C10_metadata_reports_options (originalCount : ℕ) (coordinates : List Point)
    (snap smooth : String) (fr : FetchResult) (c : List Point) (meta : Metadata)
    (h : routeProcess originalCount coordinates snap smooth fr = .ok c meta) :
    meta.roadSnapped = (snap == "true") ∧ meta.smoothed = (smooth == "true") := by
  by_cases hl : coordinates.length = 0
  · simp only [routeProcess, if_pos hl] at h
    exact absurd h (by simp)
  · simp only [routeProcess, if_neg hl] at h
    injection h with h1 h2
    subst h2
    exact ⟨rfl, rfl⟩

/-- Witness for C10: a request with `snap=true`, `smooth=false` whose
map-matching fetch fails still reports `roadSnapped = true`. -/
theorem C10_metadata_reports_options_witness :
    (⟨1, 1, true, false⟩ : Metadata).roadSnapped = ("true" == "true") ∧
      (⟨1, 1, true, false⟩ : Metadata).smoothed = ("false" == "true") :=
  C10_metadata_reports_options 1 [ptA] "true" "false" .transportError [ptA]
    ⟨1, 1, true, false⟩ rfl
